import Mathlib

/-!
# Shallow embedding of the gex watchlist / GEX-query endpoints

This file embeds the request handlers of the gex repository:

* the watchlist route (`GET`/`POST`/`DELETE`/`PUT` on `/watchlist`):
  listing, adding, removing and reordering watchlist entries backed by a
  `watchlist` table;
* the GEX query route (`GET /gex`): resolving a summary row for a
  ticker/date, then fetching strike details and a price;
* the fetch-ticker route (`POST /fetch-ticker`): running an external
  process and mapping its exit code to a response;
* the chart-data projection of the chart component.

The hosted store is modelled as explicit lists of rows; the store's
filter/sort/limit query primitives are modelled by `List.filter`,
`List.insertionSort` and `List.head?`.  JavaScript numbers that hold
monetary quantities are modelled as `ℚ`; row ids are `Nat` values
assigned by the store; JSON fields that may be absent are `Option`s.
-/

namespace Gex

/-- A row of the `watchlist` table: `{id, ticker}`.  The store assigns
`id` on insert. -/
structure WatchlistEntry where
  id : Nat
  ticker : String
deriving DecidableEq, Repr

/-- The persisted watchlist state: the stored rows (in insertion order)
together with the store's next fresh id. -/
structure WatchlistDB where
  rows : List WatchlistEntry
  nextId : Nat
deriving DecidableEq, Repr

/-- `order("id", { ascending: true })` on the watchlist table. -/
def idAsc (a b : WatchlistEntry) : Prop := a.id ≤ b.id

instance : DecidableRel idAsc := fun a b => Nat.decLe a.id b.id

instance : IsTotal WatchlistEntry idAsc := ⟨fun a b => Nat.le_total a.id b.id⟩

instance : IsTrans WatchlistEntry idAsc := ⟨fun _ _ _ h h' => Nat.le_trans h h'⟩

/-- `GET /watchlist`: select all rows ordered by id ascending. -/
def listWatchlist (db : WatchlistDB) : List WatchlistEntry :=
  List.insertionSort idAsc db.rows

/-- JavaScript `String.prototype.toUpperCase()`, character by
character. -/
def jsToUpper (s : String) : String := ⟨s.data.map Char.toUpper⟩

/-- JavaScript `String.prototype.trim()`: drop leading and trailing
whitespace, leaving interior characters untouched. -/
def jsTrim (s : String) : String :=
  ⟨((s.data.dropWhile Char.isWhitespace).reverse.dropWhile
      Char.isWhitespace).reverse⟩

/-- `ticker.toUpperCase().trim()` in the `POST /watchlist` handler. -/
def normalizeTicker (t : String) : String := jsTrim (jsToUpper t)

/-- Response of `POST /watchlist`. -/
inductive AddResponse where
  /-- 400 `{error: "Invalid ticker symbol"}` -/
  | invalid
  /-- 409 `{error: "Ticker already in watchlist"}` -/
  | conflict
  /-- 201 `{message, data}` carrying the inserted row -/
  | created (e : WatchlistEntry)
deriving DecidableEq, Repr

/-- HTTP status of an `AddResponse`. -/
def AddResponse.status : AddResponse → Nat
  | .invalid => 400
  | .conflict => 409
  | .created _ => 201

/-- `POST /watchlist` (the `POST` handler of the watchlist route).
`ticker = none` models a missing or non-string body field (rejected by
`!ticker || typeof ticker !== "string"`, which also rejects the empty
string).  The existence check is `eq("ticker", tickerUpper).limit(1)`;
the insert appends a row whose id the store assigns. -/
def addTicker (db : WatchlistDB) (ticker : Option String) :
    AddResponse × WatchlistDB :=
  match ticker with
  | none => (.invalid, db)
  | some t =>
    if t = "" then (.invalid, db)
    else
      let tu := normalizeTicker t
      if db.rows.any (fun r => decide (r.ticker = tu)) then (.conflict, db)
      else
        let e : WatchlistEntry := ⟨db.nextId, tu⟩
        (.created e, ⟨db.rows ++ [e], db.nextId + 1⟩)

/-- Response of `DELETE /watchlist`. -/
inductive RemoveResponse where
  /-- 400 `{error: "Ticker is required"}` -/
  | invalid
  /-- 200 `{message: "Ticker removed successfully"}` -/
  | success
deriving DecidableEq, Repr

/-- HTTP status of a `RemoveResponse`. -/
def RemoveResponse.status : RemoveResponse → Nat
  | .invalid => 400
  | .success => 200

/-- `DELETE /watchlist?ticker=X`.  `searchParams.get("ticker")` yields
`none` when the parameter is absent and `some ""` when it is present but
empty; `!ticker` rejects both.  The delete is
`eq("ticker", ticker.toUpperCase())` (no trim here) and the handler
reports success regardless of how many rows matched. -/
def removeTicker (db : WatchlistDB) (ticker : Option String) :
    RemoveResponse × WatchlistDB :=
  match ticker with
  | none => (.invalid, db)
  | some t =>
    if t = "" then (.invalid, db)
    else
      (.success, ⟨db.rows.filter (fun r => decide (r.ticker ≠ jsToUpper t)), db.nextId⟩)

/-- Response of `PUT /watchlist`. -/
inductive ReorderResponse where
  /-- 400 `{error: "ID and newIndex are required"}` -/
  | invalid
  /-- 404 `{error: "Ticker not found"}` -/
  | notFound
  /-- 200 `{tickers}` carrying the reordered view -/
  | ok (tickers : List WatchlistEntry)
deriving DecidableEq, Repr

/-- HTTP status of a `ReorderResponse`. -/
def ReorderResponse.status : ReorderResponse → Nat
  | .invalid => 400
  | .notFound => 404
  | .ok _ => 200

/-- `allTickers.findIndex(t => t.id === id)` followed by
`allTickers.splice(itemIndex, 1)`: locate the first entry whose id
matches and split it off, keeping the remaining entries in order. -/
def removeById (id : Int) : List WatchlistEntry →
    Option (WatchlistEntry × List WatchlistEntry)
  | [] => none
  | x :: l =>
    if (x.id : Int) = id then some (x, l)
    else (removeById id l).map (fun p => (p.1, x :: p.2))

/-- The index actually used by `Array.prototype.splice(start, 0, item)`
on a list of length `n`: a negative `start` counts from the end
(`max(n + start, 0)`), a non-negative one is clamped to `n`. -/
def jsSpliceIdx (n : Nat) (k : Int) : Nat :=
  if k < 0 then (n + k).toNat else min k.toNat n

/-- `list.splice(k, 0, x)`: insert `x` at the splice index. -/
def jsSpliceInsert (l : List WatchlistEntry) (k : Int) (x : WatchlistEntry) :
    List WatchlistEntry :=
  l.take (jsSpliceIdx l.length k) ++ x :: l.drop (jsSpliceIdx l.length k)

/-- `PUT /watchlist` body `{id, newIndex}`.  `none` models an absent
(`undefined`) field.  `!id` also rejects `id = 0`.  The handler fetches
the list ordered by id ascending, removes the matching entry, reinserts
it with `splice(newIndex, 0, ...)` and returns the view; it never
writes to the store. -/
def reorderWatchlist (db : WatchlistDB) (id newIndex : Option Int) :
    ReorderResponse × WatchlistDB :=
  match id, newIndex with
  | none, _ => (.invalid, db)
  | _, none => (.invalid, db)
  | some i, some k =>
    if i = 0 then (.invalid, db)
    else
      match removeById i (listWatchlist db) with
      | none => (.notFound, db)
      | some (x, rest) => (.ok (jsSpliceInsert rest k x), db)

/-- A row of the `summaries` table.  The handlers bind the
`ticker_id` query parameter, a string, straight into the store filter,
so the column is modelled as a string as well. -/
structure SummaryRow where
  ticker_id : String
  date : String
  total_gex : ℚ
  flip_price : ℚ
  percentile : ℚ
deriving DecidableEq, Repr

/-- A row of the `details` table. -/
structure DetailRow where
  ticker_id : String
  date : String
  strike : ℚ
  net_gex : ℚ
deriving DecidableEq, Repr

/-- A row of the `prices` table. -/
structure PriceRow where
  ticker_id : String
  date : String
  price : ℚ
deriving DecidableEq, Repr

/-- The read-only store behind `GET /gex`. -/
structure GexDB where
  summaries : List SummaryRow
  details : List DetailRow
  prices : List PriceRow
deriving DecidableEq, Repr

/-- The store's ordering on `date` column values: ISO `YYYY-MM-DD`
strings compare chronologically exactly when they compare
lexicographically, so the order is the lexicographic order on the
underlying character lists. -/
def dateLe (a b : String) : Prop := a.data ≤ b.data

instance : DecidableRel dateLe :=
  fun a b => inferInstanceAs (Decidable (a.data ≤ b.data))

/-- `order("date", { ascending: false })` on `summaries`. -/
def dateDesc (a b : SummaryRow) : Prop := dateLe b.date a.date

instance : DecidableRel dateDesc :=
  fun a b => inferInstanceAs (Decidable (b.date.data ≤ a.date.data))

instance : IsTotal SummaryRow dateDesc :=
  ⟨fun a b => (le_total a.date.data b.date.data).symm⟩

instance : IsTrans SummaryRow dateDesc :=
  ⟨fun _ _ _ h h' => le_trans (α := List Char) h' h⟩

/-- `order("strike", { ascending: true })` on `details`. -/
def strikeAsc (a b : DetailRow) : Prop := a.strike ≤ b.strike

instance : DecidableRel strikeAsc :=
  fun a b => inferInstanceAs (Decidable (a.strike ≤ b.strike))

instance : IsTotal DetailRow strikeAsc :=
  ⟨fun a b => le_total a.strike b.strike⟩

instance : IsTrans DetailRow strikeAsc :=
  ⟨fun _ _ _ h h' => le_trans h h'⟩

/-- `searchParams.get("ticker_id") || "1"`: an absent or empty
parameter falls back to `"1"`. -/
def effTickerId : Option String → String
  | none => "1"
  | some s => if s = "" then "1" else s

/-- The `date` parameter as the handler tests it with `if (date)`:
an absent or empty string counts as "no date given". -/
def effDate : Option String → Option String
  | none => none
  | some d => if d = "" then none else some d

/-- Step 1 of the `GET /gex` handler: the summary query.  With a date,
`eq("ticker_id", tid).eq("date", d)` and `data[0]`; without one,
`eq("ticker_id", tid).order("date", {ascending: false}).limit(1)`. -/
def resolveSummary (db : GexDB) (tid : String) (dateOpt : Option String) :
    Option SummaryRow :=
  let forTicker := db.summaries.filter (fun r => decide (r.ticker_id = tid))
  match dateOpt with
  | some d => (forTicker.filter (fun r => decide (r.date = d))).head?
  | none => (List.insertionSort dateDesc forTicker).head?

/-- The summary object of a `GET /gex` 200 response:
`{total_gex, flip_price, percentile, date}` copied off the resolved
row. -/
structure SummaryOut where
  total_gex : ℚ
  flip_price : ℚ
  percentile : ℚ
  date : String
deriving DecidableEq, Repr

/-- Projection of a summary row onto the response object. -/
def SummaryRow.toOut (r : SummaryRow) : SummaryOut :=
  ⟨r.total_gex, r.flip_price, r.percentile, r.date⟩

/-- Response of `GET /gex`. -/
inductive GexResponse where
  /-- 404 `{error: "No summary data found"}` -/
  | notFound
  /-- 200 `{summary, price, strikes}`; `price` is `null` when no price
  row exists -/
  | ok (summary : SummaryOut) (price : Option ℚ) (strikes : List DetailRow)
deriving DecidableEq, Repr

/-- HTTP status of a `GexResponse`. -/
def GexResponse.status : GexResponse → Nat
  | .notFound => 404
  | .ok _ _ _ => 200

/-- The `error` field of a `GexResponse`, when present. -/
def GexResponse.errorMsg : GexResponse → Option String
  | .notFound => some "No summary data found"
  | .ok _ _ _ => none

/-- `GET /gex` after parameter normalization: resolve the summary, 404
if none, else fetch strikes (ordered by strike ascending) and the price
for `date || summary.date` and assemble the response. -/
def getGexResolved (db : GexDB) (tid : String) (dateOpt : Option String) :
    GexResponse :=
  match resolveSummary db tid dateOpt with
  | none => .notFound
  | some summary =>
    let queryDate := dateOpt.getD summary.date
    let strikes := List.insertionSort strikeAsc
      (db.details.filter
        (fun r => decide (r.ticker_id = tid ∧ r.date = queryDate)))
    let price := (db.prices.filter
        (fun r => decide (r.ticker_id = tid ∧ r.date = queryDate))).head?.map
      (fun r => r.price)
    .ok summary.toOut price strikes

/-- The full `GET /gex?ticker_id=…&date=…` handler on raw query
parameters (`none` = parameter absent). -/
def getGex (db : GexDB) (tickerIdParam dateParam : Option String) :
    GexResponse :=
  getGexResolved db (effTickerId tickerIdParam) (effDate dateParam)

/-- Outcome of the spawned `python3 fetch_single_ticker.py <ticker>`
process: exit code plus the captured output streams. -/
structure ProcOutcome where
  exitCode : Int
  stdout : String
  stderr : String

/-- Response of `POST /fetch-ticker`. -/
inductive FetchResponse where
  /-- 400 `{error: "Invalid ticker symbol"}` -/
  | invalid
  /-- 200 `{message, output}` carrying captured standard output -/
  | success (output : String)
  /-- 500 `{error, details}` carrying captured standard error -/
  | fetchFailed (details : String)
deriving DecidableEq, Repr

/-- HTTP status of a `FetchResponse`. -/
def FetchResponse.status : FetchResponse → Nat
  | .invalid => 400
  | .success _ => 200
  | .fetchFailed _ => 500

/-- `POST /fetch-ticker` body `{ticker}`.  `run` is the external
process (a collaborator): it maps the ticker argument to the completed
process outcome.  Exit code 0 yields 200 with stdout; anything else
yields 500 with stderr. -/
def fetchTicker (ticker : Option String) (run : String → ProcOutcome) :
    FetchResponse :=
  match ticker with
  | none => .invalid
  | some t =>
    if t = "" then .invalid
    else
      let o := run t
      if o.exitCode = 0 then .success o.stdout else .fetchFailed o.stderr

/-- The per-strike input of the chart component (`interface GEXData`). -/
structure GEXData where
  strike : ℚ
  net_gex : ℚ
deriving DecidableEq, Repr

/-- One element of the component's `chartData` array. -/
structure ChartPoint where
  strike : ℚ
  negativeGEX : ℚ
  positiveGEX : ℚ
deriving DecidableEq, Repr

/-- The `chartData` projection of the chart component:
`{strike, "Negative GEX": min(net_gex, 0), "Positive GEX": max(net_gex, 0)}`
for each strike. -/
def chartData (strikes : List GEXData) : List ChartPoint :=
  strikes.map (fun s => ⟨s.strike, min s.net_gex 0, max s.net_gex 0⟩)

/-- Whether a string still holds whitespace strictly inside, i.e.
whitespace that survives trimming both ends. -/
def hasInnerWhitespace (s : String) : Bool :=
  (jsTrim s).data.any Char.isWhitespace

/-- The reorder result as the reorder claim words it: the entry
matching `id` is removed and reinserted at position `newIndex` clamped
to the list bounds (below by `0`, above by the length). -/
def claimedClampIdx (n : Nat) (k : Int) : Nat :=
  (min (max k 0) (n : Int)).toNat

/-- The reorder output built from the claim's words, to be compared
with `reorderWatchlist`: remove the entry matching `id`, reinsert at
the clamped position. -/
def claimedReorderClamped (l : List WatchlistEntry) (id k : Int) :
    Option (List WatchlistEntry) :=
  (removeById id l).map (fun p =>
    p.2.take (claimedClampIdx p.2.length k) ++
      p.1 :: p.2.drop (claimedClampIdx p.2.length k))

/-- A three-entry watchlist state used for concrete checks. -/
def db3 : WatchlistDB := ⟨[⟨1, "AAPL"⟩, ⟨2, "MSFT"⟩, ⟨3, "TSLA"⟩], 4⟩

example : normalizeTicker "aapl " = "AAPL" := by decide

example :
    addTicker ⟨[], 1⟩ (some "aapl ") =
      (.created ⟨1, "AAPL"⟩, ⟨[⟨1, "AAPL"⟩], 2⟩) := by decide

example :
    (reorderWatchlist ⟨[⟨1, "A"⟩, ⟨2, "B"⟩, ⟨3, "C"⟩], 4⟩
        (some 1) (some (-1))).1 =
      .ok [⟨2, "B"⟩, ⟨1, "A"⟩, ⟨3, "C"⟩] := by decide

example :
    (reorderWatchlist ⟨[⟨1, "A"⟩, ⟨2, "B"⟩, ⟨3, "C"⟩], 4⟩
        (some 3) (some 0)).1 =
      .ok [⟨3, "C"⟩, ⟨1, "A"⟩, ⟨2, "B"⟩] := by decide

/-! ## Theorems about the watchlist operations -/

/-- C10: when the `ticker_id` query parameter is absent or empty,
`GET /gex` does not reject the request; it behaves exactly as a request
for `ticker_id=1`, and its status is never 400. -/
theorem getGex_defaults_ticker_id_to_one :
    ∀ (db : GexDB) (dp : Option String),
      getGex db none dp = getGex db (some "1") dp ∧
      getGex db (some "") dp = getGex db (some "1") dp ∧
      (getGex db none dp).status ≠ 400 := by
  intro db dp
  refine ⟨rfl, rfl, ?_⟩
  cases getGex db none dp <;> simp [GexResponse.status]

/-- C4: `PUT /watchlist` (reorder) never writes to the store: the
persisted state after the call is the state before it, so listing after
a reorder returns the same sequence as listing before it. -/
theorem reorder_does_not_write :
    ∀ (db : WatchlistDB) (id newIndex : Option Int),
      (reorderWatchlist db id newIndex).2 = db ∧
      listWatchlist (reorderWatchlist db id newIndex).2 = listWatchlist db := by
  intro db id newIndex
  have h : (reorderWatchlist db id newIndex).2 = db := by
    cases id with
    | none => cases newIndex <;> rfl
    | some i =>
      cases newIndex with
      | none => rfl
      | some k =>
        by_cases hi : i = 0
        · simp [reorderWatchlist, hi]
        · cases hr : removeById i (listWatchlist db) with
          | none => simp [reorderWatchlist, hi, hr]
          | some p => simp [reorderWatchlist, hi, hr]
  exact ⟨h, by rw [h]⟩

/-- C7 (amended): `DELETE /watchlist` reports success for every
non-empty ticker value whatever the stored rows are (in particular
whether or not any row matches), and it rejects with 400 exactly when
the ticker parameter is missing or present but empty. -/
theorem remove_success_iff_ticker_nonempty :
    ∀ (db : WatchlistDB) (ticker : Option String),
      ((removeTicker db ticker).1 = .success ↔
        ¬(ticker = none ∨ ticker = some "")) ∧
      ((removeTicker db ticker).1 = .invalid ↔
        (ticker = none ∨ ticker = some "")) ∧
      ((removeTicker db ticker).1.status = 200 ↔
        ¬(ticker = none ∨ ticker = some "")) := by
  intro db ticker
  cases ticker with
  | none => simp [removeTicker, RemoveResponse.status]
  | some t =>
    by_cases ht : t = ""
    · subst ht; simp [removeTicker, RemoveResponse.status]
    · simp [removeTicker, ht, RemoveResponse.status]

/-- C7 (counterexample to the claim as stated): a request whose ticker
parameter is present but empty (`DELETE /watchlist?ticker=`) is also
rejected with 400, although the parameter is not missing. -/
theorem remove_rejects_present_empty_ticker :
    (removeTicker db3 (some "")).1 = .invalid ∧
    (removeTicker db3 (some "")).1.status = 400 ∧
    (some "" : Option String) ≠ none := by decide

/-- C5 (amended): every ticker accepted by `POST /watchlist` is stored
as the input uppercased and then trimmed of leading and trailing
whitespace; the stored row is appended to the table and appears in a
subsequent listing. -/
theorem add_stores_upper_trimmed_ticker :
    ∀ (db : WatchlistDB) (t : String) (e : WatchlistEntry)
      (db' : WatchlistDB),
      addTicker db (some t) = (.created e, db') →
      e.ticker = jsTrim (jsToUpper t) ∧ e.ticker = normalizeTicker t ∧
      db'.rows = db.rows ++ [e] ∧ e ∈ listWatchlist db' := by
  intro db t e db' h
  by_cases ht : t = ""
  · subst ht; simp [addTicker] at h
  · simp only [addTicker] at h
    rw [if_neg ht] at h
    by_cases hex :
        (db.rows.any fun r => decide (r.ticker = normalizeTicker t)) = true
    · rw [if_pos hex] at h
      exact absurd (congrArg Prod.fst h) (by simp)
    · rw [if_neg hex] at h
      have h1 : AddResponse.created ⟨db.nextId, normalizeTicker t⟩ =
          .created e := congrArg Prod.fst h
      have h2 :
          (⟨db.rows ++ [⟨db.nextId, normalizeTicker t⟩], db.nextId + 1⟩ :
            WatchlistDB) = db' := congrArg Prod.snd h
      have he : e = ⟨db.nextId, normalizeTicker t⟩ := by
        cases h1; rfl
      subst he
      subst h2
      refine ⟨rfl, rfl, rfl, ?_⟩
      simp only [listWatchlist, List.mem_insertionSort]
      exact List.mem_append_right _ (by simp)

/-- C5 (counterexample to the claim as stated): the store boundary only
trims the ends.  Adding `"a a"` stores `"A A"`, which still holds
interior whitespace; and adding `"aapl "` stores `"AAPL"`, which is not
the input uppercased (that would be `"AAPL "`). -/
theorem add_keeps_inner_whitespace :
    (addTicker ⟨[], 1⟩ (some "a a")).1 = .created ⟨1, "A A"⟩ ∧
    hasInnerWhitespace "A A" = true ∧
    (addTicker ⟨[], 1⟩ (some "aapl ")).1 = .created ⟨1, "AAPL"⟩ ∧
    "AAPL" ≠ jsToUpper "aapl " := by decide

/-- C5 (witness): adding `"aapl "` to an empty watchlist stores exactly
`"AAPL"` and listing returns it. -/
theorem add_stores_upper_trimmed_ticker_witness :
    (⟨1, "AAPL"⟩ : WatchlistEntry).ticker = jsTrim (jsToUpper "aapl ") ∧
    (⟨1, "AAPL"⟩ : WatchlistEntry).ticker = normalizeTicker "aapl " ∧
    ([⟨1, "AAPL"⟩] : List WatchlistEntry) = [] ++ [⟨1, "AAPL"⟩] ∧
    (⟨1, "AAPL"⟩ : WatchlistEntry) ∈ listWatchlist ⟨[⟨1, "AAPL"⟩], 2⟩ :=
  add_stores_upper_trimmed_ticker ⟨[], 1⟩ "aapl " ⟨1, "AAPL"⟩
    ⟨[⟨1, "AAPL"⟩], 2⟩ (by decide)

/-- C6: adding a ticker whose normalized form is already stored (any
case variant of a stored ticker) yields 409 and leaves the store
unchanged; adding a non-empty ticker whose normalized form is not
stored inserts exactly one new row and returns it with 201. -/
theorem add_conflict_or_created :
    (∀ (db : WatchlistDB) (t : String) (e₀ : WatchlistEntry),
        t ≠ "" → e₀ ∈ db.rows → e₀.ticker = normalizeTicker t →
        addTicker db (some t) = (.conflict, db) ∧
        (addTicker db (some t)).1.status = 409) ∧
    (∀ (db : WatchlistDB) (t : String),
        t ≠ "" → (∀ e ∈ db.rows, e.ticker ≠ normalizeTicker t) →
        ∃ e, addTicker db (some t) =
            (.created e, ⟨db.rows ++ [e], db.nextId + 1⟩) ∧
          e.ticker = normalizeTicker t ∧
          (addTicker db (some t)).1.status = 201) := by
  constructor
  · intro db t e₀ ht he hne
    have hex : db.rows.any (fun r => decide (r.ticker = normalizeTicker t)) :=
      List.any_eq_true.mpr ⟨e₀, he, by simp [hne]⟩
    constructor
    · simp [addTicker, ht, hex]
    · simp [addTicker, ht, hex, AddResponse.status]
  · intro db t ht hnone
    have hex :
        (db.rows.any fun r => decide (r.ticker = normalizeTicker t)) =
          false := by
      rw [Bool.eq_false_iff]
      intro hc
      obtain ⟨e, he, hd⟩ := List.any_eq_true.mp hc
      exact hnone e he (by simpa using hd)
    refine ⟨⟨db.nextId, normalizeTicker t⟩, ?_, rfl, ?_⟩
    · simp [addTicker, ht, hex]
    · simp [addTicker, ht, hex, AddResponse.status]

/-- C6 (witness): adding `"aapl"` when `"AAPL"` is stored conflicts and
leaves the store unchanged; adding `"msft"` to an empty watchlist
creates `"MSFT"`. -/
theorem add_conflict_or_created_witness :
    (addTicker db3 (some "aapl") = (.conflict, db3) ∧
      (addTicker db3 (some "aapl")).1.status = 409) ∧
    ∃ e, addTicker ⟨[], 1⟩ (some "msft") =
        (.created e, ⟨[] ++ [e], 1 + 1⟩) ∧
      e.ticker = normalizeTicker "msft" ∧
      (addTicker ⟨[], 1⟩ (some "msft")).1.status = 201 :=
  ⟨add_conflict_or_created.1 db3 "aapl" ⟨1, "AAPL"⟩ (by decide) (by decide)
      (by decide),
    add_conflict_or_created.2 ⟨[], 1⟩ "msft" (by decide) (by decide)⟩

/-- C8: for every non-empty ticker, `POST /fetch-ticker` classifies the
completed process by exit code alone: exit 0 yields 200 carrying the
captured standard output, any other exit yields 500 carrying the
captured standard error. -/
theorem fetchTicker_maps_exit_code :
    ∀ (t : String) (run : String → ProcOutcome), t ≠ "" →
      ((run t).exitCode = 0 →
        fetchTicker (some t) run = .success (run t).stdout ∧
        (fetchTicker (some t) run).status = 200) ∧
      ((run t).exitCode ≠ 0 →
        fetchTicker (some t) run = .fetchFailed (run t).stderr ∧
        (fetchTicker (some t) run).status = 500) := by
  intro t run ht
  constructor
  · intro h0
    constructor <;> simp [fetchTicker, ht, h0, FetchResponse.status]
  · intro h0
    constructor <;> simp [fetchTicker, ht, h0, FetchResponse.status]

/-- C8 (witness): a zero-exit run for `"SPY"` yields 200 with its
stdout, a one-exit run yields 500 with its stderr. -/
theorem fetchTicker_maps_exit_code_witness :
    (fetchTicker (some "SPY") (fun _ => ⟨0, "rows written", ""⟩) =
        .success "rows written" ∧
      (fetchTicker (some "SPY") (fun _ => ⟨0, "rows written", ""⟩)).status =
        200) ∧
    (fetchTicker (some "SPY") (fun _ => ⟨1, "", "no such ticker"⟩) =
        .fetchFailed "no such ticker" ∧
      (fetchTicker (some "SPY")
          (fun _ => ⟨1, "", "no such ticker"⟩)).status = 500) :=
  ⟨(fetchTicker_maps_exit_code "SPY" (fun _ => ⟨0, "rows written", ""⟩)
      (by decide)).1 (by decide),
    (fetchTicker_maps_exit_code "SPY" (fun _ => ⟨1, "", "no such ticker"⟩)
      (by decide)).2 (by decide)⟩

/-- C9: the chart-data projection sends each strike row to
`min(net_gex, 0)` and `max(net_gex, 0)` pairwise by strike, the two
always resum to `net_gex`, and on strikes `[(100, -50), (105, +30)]` it
yields negative parts `[-50, 0]` and positive parts `[0, 30]`. -/
theorem chartData_splits_net_gex :
    (∀ strikes : List GEXData,
      List.Forall₂
        (fun (s : GEXData) (p : ChartPoint) =>
          p.strike = s.strike ∧ p.negativeGEX = min s.net_gex 0 ∧
          p.positiveGEX = max s.net_gex 0 ∧
          p.negativeGEX + p.positiveGEX = s.net_gex)
        strikes (chartData strikes)) ∧
    chartData [⟨100, -50⟩, ⟨105, 30⟩] =
      [⟨100, -50, 0⟩, ⟨105, 0, 30⟩] := by
  constructor
  · intro strikes
    rw [chartData, List.forall₂_map_right_iff]
    refine List.forall₂_same.mpr (fun s _ => ⟨rfl, rfl, rfl, ?_⟩)
    rw [min_add_max, add_zero]
  · decide

/-! ## Theorems about the GEX query -/

/-- A summary resolved with an explicit date is a stored row carrying
exactly the requested ticker id and date. -/
theorem resolveSummary_some_date {db : GexDB} {tid d : String}
    {h : SummaryRow} (hr : resolveSummary db tid (some d) = some h) :
    h ∈ db.summaries ∧ h.ticker_id = tid ∧ h.date = d := by
  simp only [resolveSummary] at hr
  have hm := List.mem_of_mem_head? hr
  rw [List.mem_filter] at hm
  obtain ⟨hm1, hq⟩ := hm
  rw [List.mem_filter] at hm1
  exact ⟨hm1.1, by simpa using hm1.2, by simpa using hq⟩

/-- If some stored row matches the requested ticker id and date, the
summary query with that date resolves. -/
theorem resolveSummary_some_date_isSome {db : GexDB} {tid d : String}
    {row : SummaryRow} (hrow : row ∈ db.summaries)
    (h1 : row.ticker_id = tid) (h2 : row.date = d) :
    ∃ h, resolveSummary db tid (some d) = some h := by
  simp only [resolveSummary]
  have hm : row ∈ (db.summaries.filter
      (fun r => decide (r.ticker_id = tid))).filter
        (fun r => decide (r.date = d)) := by
    rw [List.mem_filter, List.mem_filter]
    exact ⟨⟨hrow, by simp [h1]⟩, by simp [h2]⟩
  cases hl : (db.summaries.filter
      (fun r => decide (r.ticker_id = tid))).filter
        (fun r => decide (r.date = d)) with
  | nil => rw [hl] at hm; cases hm
  | cons a t => exact ⟨a, rfl⟩

/-- A summary resolved without a date is a stored row for the requested
ticker id whose date is maximal among that ticker's stored rows. -/
theorem resolveSummary_latest {db : GexDB} {tid : String}
    {h : SummaryRow} (hr : resolveSummary db tid none = some h) :
    h ∈ db.summaries ∧ h.ticker_id = tid ∧
      ∀ r ∈ db.summaries, r.ticker_id = tid → dateLe r.date h.date := by
  simp only [resolveSummary] at hr
  have hsorted := List.sorted_insertionSort dateDesc
    (db.summaries.filter (fun r => decide (r.ticker_id = tid)))
  cases hl : List.insertionSort dateDesc
      (db.summaries.filter (fun r => decide (r.ticker_id = tid))) with
  | nil => rw [hl] at hr; cases hr
  | cons a t =>
    rw [hl] at hr
    have ha : h = a := by simpa using hr.symm
    subst ha
    rw [hl] at hsorted
    have hrel := List.rel_of_sorted_cons hsorted
    have hmem : h ∈ db.summaries.filter (fun r => decide (r.ticker_id = tid)) := by
      rw [← List.mem_insertionSort (r := dateDesc), hl]
      exact List.mem_cons_self _ _
    rw [List.mem_filter] at hmem
    refine ⟨hmem.1, by simpa using hmem.2, ?_⟩
    intro r hrs hrt
    have hrm : r ∈ db.summaries.filter (fun s => decide (s.ticker_id = tid)) := by
      rw [List.mem_filter]
      exact ⟨hrs, by simp [hrt]⟩
    rw [← List.mem_insertionSort (r := dateDesc), hl] at hrm
    rcases List.mem_cons.mp hrm with heq | hrm'
    · rw [heq]
      exact le_refl (α := List Char) _
    · exact hrel r hrm'

/-- If some stored row matches the requested ticker id, the summary
query without a date resolves. -/
theorem resolveSummary_latest_isSome {db : GexDB} {tid : String}
    {row : SummaryRow} (hrow : row ∈ db.summaries)
    (h1 : row.ticker_id = tid) :
    ∃ h, resolveSummary db tid none = some h := by
  simp only [resolveSummary]
  have hm : row ∈ List.insertionSort dateDesc
      (db.summaries.filter (fun r => decide (r.ticker_id = tid))) := by
    rw [List.mem_insertionSort, List.mem_filter]
    exact ⟨hrow, by simp [h1]⟩
  cases hl : List.insertionSort dateDesc
      (db.summaries.filter (fun r => decide (r.ticker_id = tid))) with
  | nil => rw [hl] at hm; cases hm
  | cons a t => exact ⟨a, rfl⟩

/-- When the summary resolves, the handler answers 200 with that
summary's projection, the price row's value (if any) and the sorted
strike rows for the effective date. -/
theorem getGexResolved_of_resolve {db : GexDB} {tid : String}
    {dOpt : Option String} {s : SummaryRow}
    (h : resolveSummary db tid dOpt = some s) :
    getGexResolved db tid dOpt = .ok s.toOut
      ((db.prices.filter (fun r =>
          decide (r.ticker_id = tid ∧ r.date = dOpt.getD s.date))).head?.map
        (fun r => r.price))
      (List.insertionSort strikeAsc (db.details.filter (fun r =>
        decide (r.ticker_id = tid ∧ r.date = dOpt.getD s.date)))) := by
  simp only [getGexResolved, h]

/-- The summary query fails to resolve exactly when no stored summary
row matches the requested ticker id (and, when a date was requested,
that date). -/
theorem resolveSummary_none_iff (db : GexDB) (tid : String)
    (dOpt : Option String) :
    resolveSummary db tid dOpt = none ↔
      ¬∃ r ∈ db.summaries, r.ticker_id = tid ∧
        ∀ d, dOpt = some d → r.date = d := by
  cases dOpt with
  | some d =>
    simp only [resolveSummary, List.head?_eq_none_iff,
      List.filter_eq_nil_iff, List.mem_filter]
    constructor
    · rintro hnone ⟨r, hrs, hrt, hrd⟩
      exact hnone r ⟨hrs, by simp [hrt]⟩ (by simp [hrd d rfl])
    · intro hno r hmem hd
      refine hno ⟨r, hmem.1, by simpa using hmem.2, ?_⟩
      intro d' hd'
      obtain rfl : d = d' := Option.some.inj hd'
      simpa using hd
  | none =>
    simp only [resolveSummary, List.head?_eq_none_iff]
    have hlen : List.insertionSort dateDesc
        (db.summaries.filter (fun r => decide (r.ticker_id = tid))) = [] ↔
        db.summaries.filter (fun r => decide (r.ticker_id = tid)) = [] := by
      constructor
      · intro h
        have := congrArg List.length h
        rw [List.length_insertionSort] at this
        exact List.length_eq_zero.mp this
      · intro h; rw [h]; rfl
    rw [hlen, List.filter_eq_nil_iff]
    constructor
    · rintro hnone ⟨r, hrs, hrt, _⟩
      exact hnone r hrs (by simp [hrt])
    · intro hno r hmem hd
      exact hno ⟨r, hmem, by simpa using hd, by simp⟩

/-- C1: with a date, `GET /gex` answers with the unique summary row
stored for exactly that ticker id and date, and the response's date
field is the supplied date; without a date it answers with a stored
summary row of that ticker id whose date is maximal (date-descending
order, first row), and the response's date field is that row's own
date. -/
theorem getGex_resolves_requested_or_latest :
    (∀ (db : GexDB) (tp : Option String) (d : String) (row : SummaryRow),
        d ≠ "" → row ∈ db.summaries → row.ticker_id = effTickerId tp →
        row.date = d →
        (∀ r ∈ db.summaries,
            r.ticker_id = effTickerId tp → r.date = d → r = row) →
        ∃ p strikes, getGex db tp (some d) = .ok row.toOut p strikes ∧
          row.toOut.date = d) ∧
    (∀ (db : GexDB) (tp : Option String) (row : SummaryRow),
        row ∈ db.summaries → row.ticker_id = effTickerId tp →
        ∃ s p strikes, getGex db tp none = .ok s.toOut p strikes ∧
          s ∈ db.summaries ∧ s.ticker_id = effTickerId tp ∧
          s.toOut.date = s.date ∧
          ∀ r ∈ db.summaries, r.ticker_id = effTickerId tp →
            dateLe r.date s.date) := by
  constructor
  · intro db tp d row hd hrow ht hdate huniq
    have heff : effDate (some d) = some d := by simp [effDate, hd]
    obtain ⟨h, hr⟩ := resolveSummary_some_date_isSome hrow ht hdate
    obtain ⟨hm, hmt, hmd⟩ := resolveSummary_some_date hr
    have hhrow : h = row := huniq h hm hmt hmd
    subst hhrow
    have heq : getGex db tp (some d) =
        getGexResolved db (effTickerId tp) (some d) := by
      rw [getGex, heff]
    exact ⟨_, _, heq.trans (getGexResolved_of_resolve hr),
      by simp [SummaryRow.toOut, hdate]⟩
  · intro db tp row hrow ht
    obtain ⟨h, hr⟩ := resolveSummary_latest_isSome hrow ht
    obtain ⟨hm, hmt, hmax⟩ := resolveSummary_latest hr
    have heq : getGex db tp none =
        getGexResolved db (effTickerId tp) none := rfl
    exact ⟨h, _, _, heq.trans (getGexResolved_of_resolve hr),
      hm, hmt, rfl, hmax⟩

/-- Two summary rows for ticker `"1"`, dated `2024-01-01` and
`2024-01-05`, used for concrete checks. -/
def sumJan1 : SummaryRow := ⟨"1", "2024-01-01", 10, 100, 50⟩

/-- The later of the two concrete summary rows. -/
def sumJan5 : SummaryRow := ⟨"1", "2024-01-05", 20, 105, 60⟩

/-- A concrete GEX store holding the two summary rows and nothing
else. -/
def gexDbEx : GexDB := ⟨[sumJan1, sumJan5], [], []⟩

/-- C1 (witness): on the concrete store, requesting `2024-01-01`
returns that row, and requesting no date returns a summary whose date
is maximal (the `2024-01-05` row). -/
theorem getGex_resolves_requested_or_latest_witness :
    (∃ p strikes, getGex gexDbEx (some "1") (some "2024-01-01") =
        .ok sumJan1.toOut p strikes ∧ sumJan1.toOut.date = "2024-01-01") ∧
    ∃ s p strikes, getGex gexDbEx (some "1") none = .ok s.toOut p strikes ∧
      s ∈ gexDbEx.summaries ∧ s.ticker_id = effTickerId (some "1") ∧
      s.toOut.date = s.date ∧
      ∀ r ∈ gexDbEx.summaries, r.ticker_id = effTickerId (some "1") →
        dateLe r.date s.date :=
  ⟨getGex_resolves_requested_or_latest.1 gexDbEx (some "1") "2024-01-01"
      sumJan1 (by decide) (by decide) (by decide) (by decide) (by decide),
    getGex_resolves_requested_or_latest.2 gexDbEx (some "1") sumJan1
      (by decide) (by decide)⟩

/-- C2: `GET /gex` answers 404 with error text
`"No summary data found"` exactly when no stored summary row matches
the requested ticker id (and requested date, when one is given); when a
summary resolves but no strike detail row matches the effective date,
it answers 200 with an empty strikes list. -/
theorem getGex_notFound_iff_no_summary :
    (∀ (db : GexDB) (tp dp : Option String),
        ((getGex db tp dp).status = 404 ∧
          (getGex db tp dp).errorMsg = some "No summary data found") ↔
        ¬∃ r ∈ db.summaries, r.ticker_id = effTickerId tp ∧
          ∀ d, effDate dp = some d → r.date = d) ∧
    (∀ (db : GexDB) (tp dp : Option String) (s : SummaryRow),
        resolveSummary db (effTickerId tp) (effDate dp) = some s →
        (∀ r ∈ db.details,
            ¬(r.ticker_id = effTickerId tp ∧
              r.date = (effDate dp).getD s.date)) →
        ∃ p, getGex db tp dp = .ok s.toOut p [] ∧
          (getGex db tp dp).status = 200) := by
  constructor
  · intro db tp dp
    have hcase :
        ((getGex db tp dp).status = 404 ∧
          (getGex db tp dp).errorMsg = some "No summary data found") ↔
        getGex db tp dp = .notFound := by
      cases getGex db tp dp <;>
        simp [GexResponse.status, GexResponse.errorMsg]
    rw [hcase, ← resolveSummary_none_iff db (effTickerId tp) (effDate dp)]
    rw [getGex]
    cases hres : resolveSummary db (effTickerId tp) (effDate dp) with
    | none => simp [getGexResolved, hres]
    | some s => simp [getGexResolved, hres]
  · intro db tp dp s hres hdet
    have hfil : db.details.filter (fun r =>
        decide (r.ticker_id = effTickerId tp ∧
          r.date = (effDate dp).getD s.date)) = [] := by
      rw [List.filter_eq_nil_iff]
      intro r hr
      simpa using hdet r hr
    have heq : getGex db tp dp = .ok s.toOut
        ((db.prices.filter (fun r =>
            decide (r.ticker_id = effTickerId tp ∧
              r.date = (effDate dp).getD s.date))).head?.map
          (fun r => r.price)) [] := by
      rw [getGex, getGexResolved_of_resolve hres, hfil]
      rfl
    exact ⟨_, heq, by rw [heq]; rfl⟩

/-- C2 (witness): on the concrete store — which has summaries but no
detail rows — the empty-ticker store answers 404 with the
`"No summary data found"` error, and the populated one answers 200 with
`strikes = []`. -/
theorem getGex_notFound_iff_no_summary_witness :
    ((getGex ⟨[], [], []⟩ (some "1") none).status = 404 ∧
      (getGex ⟨[], [], []⟩ (some "1") none).errorMsg =
        some "No summary data found") ∧
    ∃ p, getGex gexDbEx (some "1") none = .ok sumJan5.toOut p [] ∧
      (getGex gexDbEx (some "1") none).status = 200 :=
  ⟨(getGex_notFound_iff_no_summary.1 ⟨[], [], []⟩ (some "1") none).mpr
      (by decide),
    getGex_notFound_iff_no_summary.2 gexDbEx (some "1") none sumJan5
      (by decide) (by decide)⟩

/-! ## Theorems about the reorder operation -/

/-- `findIndex`/`splice(itemIndex, 1)` on a list split around the first
entry whose id matches: the match is returned together with the
remaining entries in order. -/
theorem removeById_of_split (id : Int) (pre suf : List WatchlistEntry)
    (x : WatchlistEntry) (hpre : ∀ a ∈ pre, (a.id : Int) ≠ id)
    (hx : (x.id : Int) = id) :
    removeById id (pre ++ x :: suf) = some (x, pre ++ suf) := by
  induction pre with
  | nil => simp [removeById, hx]
  | cons a l ih =>
    have ha : ¬((a.id : Int) = id) := hpre a (List.mem_cons_self a l)
    simp only [List.cons_append, removeById, if_neg ha, List.append_eq]
    rw [ih (fun b hb => hpre b (List.mem_cons_of_mem a hb))]
    rfl

/-- `findIndex` misses when no entry's id matches. -/
theorem removeById_eq_none (id : Int) (l : List WatchlistEntry)
    (h : ∀ a ∈ l, (a.id : Int) ≠ id) : removeById id l = none := by
  induction l with
  | nil => rfl
  | cons a t ih =>
    simp only [removeById, if_neg (h a (List.mem_cons_self a t))]
    rw [ih (fun b hb => h b (List.mem_cons_of_mem a hb))]
    rfl

/-- The first index satisfying a predicate, when every element of the
prefix fails it and the element after the prefix satisfies it, is the
prefix length. -/
theorem findIdx_prefix_false {α : Type} (p : α → Bool) (as bs : List α)
    (x : α) (h : ∀ a ∈ as, p a = false) (hx : p x = true) :
    List.findIdx p (as ++ x :: bs) = as.length := by
  induction as with
  | nil => simp [List.findIdx_cons, hx]
  | cons a t ih =>
    have ha := h a (List.mem_cons_self a t)
    simp [List.findIdx_cons, ha,
      ih (fun b hb => h b (List.mem_cons_of_mem a hb))]

/-- The splice insertion index never exceeds the list length. -/
theorem jsSpliceIdx_le (n : Nat) (k : Int) : jsSpliceIdx n k ≤ n := by
  unfold jsSpliceIdx
  split <;> omega

/-- Splicing an element in permutes it into the list. -/
theorem jsSpliceInsert_perm (l : List WatchlistEntry) (k : Int)
    (x : WatchlistEntry) : (jsSpliceInsert l k x).Perm (x :: l) := by
  unfold jsSpliceInsert
  have h1 : (l.take (jsSpliceIdx l.length k) ++
      x :: l.drop (jsSpliceIdx l.length k)).Perm
        (x :: (l.take (jsSpliceIdx l.length k) ++
          l.drop (jsSpliceIdx l.length k))) := List.perm_middle
  rw [List.take_append_drop] at h1
  exact h1

/-- Splicing an element the filter rejects does not change the
filtered list. -/
theorem jsSpliceInsert_filter (l : List WatchlistEntry) (k : Int)
    (x : WatchlistEntry) (p : WatchlistEntry → Bool) (hx : p x = false) :
    (jsSpliceInsert l k x).filter p = l.filter p := by
  unfold jsSpliceInsert
  rw [List.filter_append, List.filter_cons]
  simp only [hx, Bool.false_eq_true, if_false]
  rw [← List.filter_append, List.take_append_drop]

/-- The spliced-in element lands at the splice index, provided it alone
satisfies the predicate. -/
theorem jsSpliceInsert_findIdx (l : List WatchlistEntry) (k : Int)
    (x : WatchlistEntry) (p : WatchlistEntry → Bool) (hx : p x = true)
    (hl : ∀ a ∈ l, p a = false) :
    (jsSpliceInsert l k x).findIdx p = jsSpliceIdx l.length k := by
  unfold jsSpliceInsert
  rw [findIdx_prefix_false p _ _ x
    (fun a ha => hl a (List.take_subset _ _ ha)) hx]
  rw [List.length_take]
  exact Nat.min_eq_left (jsSpliceIdx_le l.length k)

/-- C3 (amended): on the id-ordered list, reorder removes the first
entry whose id matches and reinserts it at the JavaScript splice
position — a non-negative `newIndex` clamped above by the remaining
length, a negative one counted from the end of the remaining list —
returning a permutation of the list that keeps every other entry in its
relative order and puts the moved entry at that position; a nonzero id
matching no entry yields 404 (`id = 0` itself is rejected as 400 before
the lookup, see the counterexample). -/
theorem reorder_moves_entry_to_splice_index :
    (∀ (db : WatchlistDB) (id k : Int) (pre suf : List WatchlistEntry)
        (x : WatchlistEntry),
        id ≠ 0 → listWatchlist db = pre ++ x :: suf →
        (∀ a ∈ pre, (a.id : Int) ≠ id) → (x.id : Int) = id →
        (∀ a ∈ suf, (a.id : Int) ≠ id) →
        ∃ out, reorderWatchlist db (some id) (some k) = (.ok out, db) ∧
          out.Perm (listWatchlist db) ∧
          out.filter (fun a => decide ((a.id : Int) ≠ id)) =
            (listWatchlist db).filter (fun a => decide ((a.id : Int) ≠ id)) ∧
          out.findIdx (fun a => decide ((a.id : Int) = id)) =
            jsSpliceIdx (pre ++ suf).length k) ∧
    (∀ (db : WatchlistDB) (id k : Int),
        id ≠ 0 → (∀ a ∈ listWatchlist db, (a.id : Int) ≠ id) →
        reorderWatchlist db (some id) (some k) = (.notFound, db)) := by
  constructor
  · intro db id k pre suf x hid hsplit hpre hx hsuf
    have hrem : removeById id (listWatchlist db) = some (x, pre ++ suf) := by
      rw [hsplit]
      exact removeById_of_split id pre suf x hpre hx
    have hout : reorderWatchlist db (some id) (some k) =
        (.ok (jsSpliceInsert (pre ++ suf) k x), db) := by
      simp [reorderWatchlist, hid, hrem]
    refine ⟨_, hout, ?_, ?_, ?_⟩
    · rw [hsplit]
      exact (jsSpliceInsert_perm (pre ++ suf) k x).trans
        List.perm_middle.symm
    · rw [jsSpliceInsert_filter _ _ _ _ (by simp [hx]), hsplit,
        List.filter_append, List.filter_append, List.filter_cons]
      simp [hx]
    · exact jsSpliceInsert_findIdx _ _ _ _ (by simp [hx])
        (fun a ha => by
          rcases List.mem_append.mp ha with h | h
          · simp [hpre a h]
          · simp [hsuf a h])
  · intro db id k hid hnone
    simp [reorderWatchlist, hid, removeById_eq_none id _ hnone]

/-- C3 (witness): on the three-entry store, moving id 3 to index 0
returns it first with the others in order, and a missing nonzero id
yields 404. -/
theorem reorder_moves_entry_to_splice_index_witness :
    (∃ out, reorderWatchlist db3 (some 3) (some 0) = (.ok out, db3) ∧
      out.Perm (listWatchlist db3) ∧
      out.filter (fun a => decide ((a.id : Int) ≠ 3)) =
        (listWatchlist db3).filter (fun a => decide ((a.id : Int) ≠ 3)) ∧
      out.findIdx (fun a => decide ((a.id : Int) = 3)) =
        jsSpliceIdx (([⟨1, "AAPL"⟩, ⟨2, "MSFT"⟩] : List WatchlistEntry) ++
          ([] : List WatchlistEntry)).length 0) ∧
    reorderWatchlist db3 (some 9) (some 0) = (.notFound, db3) :=
  ⟨reorder_moves_entry_to_splice_index.1 db3 3 0
      ([⟨1, "AAPL"⟩, ⟨2, "MSFT"⟩] : List WatchlistEntry)
      ([] : List WatchlistEntry) (⟨3, "TSLA"⟩ : WatchlistEntry)
      (by decide) (by decide) (by decide) (by decide) (by decide),
    reorder_moves_entry_to_splice_index.2 db3 9 0 (by decide) (by decide)⟩

/-- C3 (counterexample to the claim as stated): a negative `newIndex`
is not clamped to the lower list bound.  Moving id 1 with
`newIndex = -1` puts it at index 1 (JavaScript splice counts negative
indices from the end of the remaining list), while the claimed clamped
reinsertion would leave the list unchanged; and `id = 0` matching no
entry is rejected as 400, not 404. -/
theorem reorder_negative_index_not_clamped :
    (reorderWatchlist db3 (some 1) (some (-1))).1 =
      .ok [⟨2, "MSFT"⟩, ⟨1, "AAPL"⟩, ⟨3, "TSLA"⟩] ∧
    claimedReorderClamped (listWatchlist db3) 1 (-1) =
      some [⟨1, "AAPL"⟩, ⟨2, "MSFT"⟩, ⟨3, "TSLA"⟩] ∧
    ([⟨2, "MSFT"⟩, ⟨1, "AAPL"⟩, ⟨3, "TSLA"⟩] : List WatchlistEntry) ≠
      [⟨1, "AAPL"⟩, ⟨2, "MSFT"⟩, ⟨3, "TSLA"⟩] ∧
    (reorderWatchlist db3 (some 0) (some 0)).1 = .invalid ∧
    ∀ a ∈ listWatchlist db3, (a.id : Int) ≠ 0 := by decide

end Gex
